import Mathlib

/-!
# Verification of the folkroot pairwise alignment and distance engine

Shallow embedding of the core of the folkroot repository:

* `global_alignment` — the two-rolling-column global-alignment dynamic
  programming routine (`utils/global_approximate_alignment`), over sequences
  of optional integers (melodic rests are `none`);
* the shared-segments profile distance (`map_to_vector`,
  `euclidean_distance`) and its pairwise driver;
* the feature-string parser `convert_feature_to_vector` with its
  stoi-failure recovery;
* the pairwise drivers `process_alignments` and
  `process_shared_segments_alignments` (the stream of distance records they
  build and hand to the batch writer);
* the batch writer's id canonicalization (`save_alignments_batch`) and the
  command-line argument handling of `main`
  (`compute_features_alignment.cpp`).

C++ `int` values are modelled as unbounded `Int` (the corpora are far from
the 32-bit boundary everywhere the claims look, except inside `stoi`, whose
32-bit range check is modelled explicitly), `double` as exact rationals with
the final square root taken in `ℝ`, and SQLite access as explicit data
passed to the functions.
-/

namespace Folkroot

/-! ## SequenceDistance: `global_alignment` (two rolling columns) -/

/-- `min_of_three` from the alignment source: minimum of three integers. -/
def min_of_three (a b c : Int) : Int :=
  min (min a b) c

/-- The inline score computation of the alignment loop: `match_score` when
both cells are null (two rests align as a match) or both have equal values,
`mismatch_penalty` otherwise. -/
def pair_score (a b : Option Int) (match_score mismatch_penalty : Int) : Int :=
  match a, b with
  | none, none => match_score
  | some va, some vb => if va = vb then match_score else mismatch_penalty
  | _, _ => mismatch_penalty

/-- Inner `j`-loop of `global_alignment`: given the element `a_i` of the
first sequence, the remaining elements of the second sequence, the matching
suffix of the previous column (starting at `prev_column[j-1]`) and the cell
`current_column[j-1]` just written, produce the cells
`current_column[j], current_column[j+1], ...`. -/
def alignment_inner_loop (a_i : Option Int) (m x g : Int) :
    List (Option Int) → List Int → Int → List Int
  | b_j :: bs, p0 :: p1 :: ps, cur_prev =>
      let c := min_of_three (p0 + pair_score a_i b_j m x) (p1 + g) (cur_prev + g)
      c :: alignment_inner_loop a_i m x g bs (p1 :: ps) c
  | _, _, _ => []

/-- Outer `i`-loop of `global_alignment`: fold over the first sequence,
carrying the 1-based loop counter and the previous column; each step writes
`current_column[0] = i * gap_penalty` and runs the inner loop. -/
def alignment_outer_loop (m x g : Int) (b : List (Option Int)) :
    List (Option Int) → Nat → List Int → List Int
  | [], _, prev => prev
  | a_i :: rest, i, prev =>
      alignment_outer_loop m x g b rest (i + 1)
        (((i : Int) * g) :: alignment_inner_loop a_i m x g b prev ((i : Int) * g))

/-- `global_alignment` from the source: two-rolling-column dynamic
programming. The first column is `j * gap_penalty`; the loops above mirror
the C++ loops; the result is `current_column[f2_size]`. -/
def global_alignment (score_1_feature score_2_feature : List (Option Int))
    (match_score mismatch_penalty gap_penalty : Int) : Int :=
  (alignment_outer_loop match_score mismatch_penalty gap_penalty
      score_2_feature score_1_feature 1
      ((List.range (score_2_feature.length + 1)).map
        (fun (j : Nat) => (j : Int) * gap_penalty))).getD score_2_feature.length 0

/-- Reference definition following the spec's words: the classic full
`(m+1) × (n+1)` dynamic-programming matrix, row/column 0 initialized to
index times `gap_penalty`, and cell `(i, j)` the minimum of
`prev[j-1] + pairScore(a[i-1], b[j-1])`, `prev[j] + gap_penalty` and
`cur[j-1] + gap_penalty`. -/
def alignment_matrix_ref (f1 f2 : List (Option Int)) (m x g : Int) :
    Nat → Nat → Int
  | 0, j => (j : Int) * g
  | i + 1, 0 => ((i : Int) + 1) * g
  | i + 1, j + 1 =>
      min_of_three
        (alignment_matrix_ref f1 f2 m x g i j +
          pair_score (f1.getD i none) (f2.getD j none) m x)
        (alignment_matrix_ref f1 f2 m x g i (j + 1) + g)
        (alignment_matrix_ref f1 f2 m x g (i + 1) j + g)
termination_by i j => (i, j)

/-- Reference result following the spec's words: the bottom-right cell of
the full matrix. -/
def global_alignment_ref (f1 f2 : List (Option Int)) (m x g : Int) : Int :=
  alignment_matrix_ref f1 f2 m x g f1.length f2.length

example : global_alignment [some 1, some 2] [some 1, some 3] 0 1 1 = 1 := by decide

example : global_alignment [none, some 3] [none, some 3] 0 1 1 = 0 := by decide

example : global_alignment [none, some 3] [some 5, some 3] 0 1 1 = 1 := by decide

example : global_alignment [] [some 1, some 2, some 4] 0 1 2 = 6 := by decide

example : global_alignment_ref [some 1, some 2] [some 1, some 3] 0 1 1 = 1 := by
  simp [global_alignment_ref, alignment_matrix_ref, pair_score, min_of_three]

example : global_alignment_ref [none, some 3] [some 5, some 3] 0 1 1 = 1 := by
  simp [global_alignment_ref, alignment_matrix_ref, pair_score, min_of_three]

/-- Element lookup in a map over a `List.range'` block. -/
lemma getD_map_range' (f : Nat → Int) (d : Int) :
    ∀ (len s k : Nat), k < len →
      (((List.range' s len).map f).getD k d) = f (s + k) := by
  intro len
  induction len with
  | zero => intro s k hk; omega
  | succ l ih =>
      intro s k hk
      cases k with
      | zero => simp [List.range']
      | succ k' =>
          have h1 : (((List.range' (s + 1) l).map f).getD k' d) = f (s + 1 + k') :=
            ih (s + 1) k' (by omega)
          simp only [List.range', List.map_cons, List.getD_cons_succ]
          rw [h1]; congr 1; omega

/-- The element that the inner loop reads from the second sequence is the
`k`-th element of that sequence. -/
lemma drop_cons_getD {α : Type} (l : List α) (a : α) (t : List α) (k : Nat)
    (d : α) (h : l.drop k = a :: t) : l.getD k d = a ∧ l.drop (k + 1) = t := by
  constructor
  · have h1 : l[k]? = some a := by
      have h2 := List.head?_drop l k
      rw [h] at h2
      simpa using h2.symm
    simp [List.getD_eq_getD_get?, h1]
  · have : l.drop (k + 1) = (l.drop k).tail := by
      rw [← List.drop_drop]
      simp [List.drop_one]
    rw [this, h]
    rfl

/-- Invariant of the inner `j`-loop: fed the matching suffix of column `i`
of the reference matrix and the cell `(i+1, k)` just written, it produces
the cells `(i+1, k+1) ... (i+1, n)` of column `i+1`. -/
lemma alignment_inner_loop_spec (f1 f2 : List (Option Int)) (m x g : Int) (i : Nat) :
    ∀ (bs : List (Option Int)) (k : Nat), f2.drop k = bs →
      alignment_inner_loop (f1.getD i none) m x g bs
        ((List.range' k (f2.length - k + 1)).map (alignment_matrix_ref f1 f2 m x g i))
        (alignment_matrix_ref f1 f2 m x g (i + 1) k)
      = (List.range' (k + 1) (f2.length - k)).map
          (alignment_matrix_ref f1 f2 m x g (i + 1)) := by
  intro bs
  induction bs with
  | nil =>
      intro k hk
      have hlen : f2.length - k = 0 := by
        have := congrArg List.length hk
        simpa using this
      rw [hlen]
      simp [List.range', alignment_inner_loop]
  | cons b_j bs' ih =>
      intro k hk
      obtain ⟨hbj, hdrop⟩ := drop_cons_getD f2 b_j bs' k none hk
      have hlen : f2.length - k = bs'.length + 1 := by
        have := congrArg List.length hk
        simp at this
        omega
      have hlen' : f2.length - (k + 1) = bs'.length := by omega
      have hcell : alignment_matrix_ref f1 f2 m x g (i + 1) (k + 1) =
          min_of_three
            (alignment_matrix_ref f1 f2 m x g i k +
              pair_score (f1.getD i none) b_j m x)
            (alignment_matrix_ref f1 f2 m x g i (k + 1) + g)
            (alignment_matrix_ref f1 f2 m x g (i + 1) k + g) := by
        rw [← hbj]
        simp [alignment_matrix_ref]
      have hrec := ih (k + 1) hdrop
      rw [hlen'] at hrec
      have hprev : (List.range' (k + 1) (bs'.length + 1)).map
          (alignment_matrix_ref f1 f2 m x g i) =
          alignment_matrix_ref f1 f2 m x g i (k + 1) ::
            (List.range' (k + 2) bs'.length).map
              (alignment_matrix_ref f1 f2 m x g i) := by
        simp [List.range']
      rw [hprev] at hrec
      rw [hlen]
      simp only [List.range', List.map_cons]
      rw [alignment_inner_loop]
      rw [← hcell, hrec]

/-- Invariant of the outer `i`-loop: starting from column `i` of the
reference matrix with the remaining suffix of the first sequence, the loop
finishes with the final column of the reference matrix. -/
lemma alignment_outer_loop_spec (f1 f2 : List (Option Int)) (m x g : Int) :
    ∀ (rest : List (Option Int)) (i : Nat), f1.drop i = rest → i ≤ f1.length →
      alignment_outer_loop m x g f2 rest (i + 1)
        ((List.range' 0 (f2.length + 1)).map (alignment_matrix_ref f1 f2 m x g i))
      = (List.range' 0 (f2.length + 1)).map
          (alignment_matrix_ref f1 f2 m x g f1.length) := by
  intro rest
  induction rest with
  | nil =>
      intro i hdrop hle
      have : i = f1.length := by
        have := congrArg List.length hdrop
        simp at this
        omega
      subst this
      rw [alignment_outer_loop]
  | cons a_i rest' ih =>
      intro i hdrop hle
      obtain ⟨hai, hdrop'⟩ := drop_cons_getD f1 a_i rest' i none hdrop
      have hle' : i + 1 ≤ f1.length := by
        have := congrArg List.length hdrop
        simp at this
        omega
      have hinner := alignment_inner_loop_spec f1 f2 m x g i f2 0 rfl
      simp only [Nat.sub_zero] at hinner
      have hhead : ((i : Int) + 1) * g = alignment_matrix_ref f1 f2 m x g (i + 1) 0 := by
        simp [alignment_matrix_ref]
      have hcol : (((i + 1 : Nat) : Int) * g) ::
          alignment_inner_loop a_i m x g f2
            ((List.range' 0 (f2.length + 1)).map (alignment_matrix_ref f1 f2 m x g i))
            (((i + 1 : Nat) : Int) * g)
          = (List.range' 0 (f2.length + 1)).map
              (alignment_matrix_ref f1 f2 m x g (i + 1)) := by
        have hcast : (((i + 1 : Nat) : Int) * g) = ((i : Int) + 1) * g := by
          push_cast; ring
        rw [hcast, hhead, ← hai, hinner]
        simp [List.range']
      rw [alignment_outer_loop, hcol]
      exact ih (i + 1) hdrop' hle'

/-- The rolling-column implementation computes the reference matrix value:
shared bridge used by the alignment claims. -/
lemma global_alignment_eq_ref (f1 f2 : List (Option Int)) (m x g : Int) :
    global_alignment f1 f2 m x g = global_alignment_ref f1 f2 m x g := by
  unfold global_alignment global_alignment_ref
  have h0 : (List.range (f2.length + 1)).map (fun (j : Nat) => (j : Int) * g)
      = (List.range' 0 (f2.length + 1)).map (alignment_matrix_ref f1 f2 m x g 0) := by
    rw [List.range_eq_range']
    apply List.map_congr_left
    intro j _
    simp [alignment_matrix_ref]
  rw [h0, alignment_outer_loop_spec f1 f2 m x g f1 0 rfl (Nat.zero_le _)]
  have h1 := getD_map_range' (alignment_matrix_ref f1 f2 m x g f1.length) 0
    (f2.length + 1) 0 f2.length (by omega)
  rw [h1]
  norm_num

/-- Swapping the last two arguments of `min_of_three` does not change it. -/
lemma min_of_three_swap (a b c : Int) : min_of_three a b c = min_of_three a c b := by
  unfold min_of_three
  omega

/-- The inline pair score is symmetric in its two sequence elements. -/
lemma pair_score_comm (a b : Option Int) (m x : Int) :
    pair_score a b m x = pair_score b a m x := by
  cases a <;> cases b <;> simp [pair_score]
  split <;> split <;> simp_all

/-- The reference matrix is symmetric: transposing the matrix of `(A, B)`
gives the matrix of `(B, A)`, because the substitution score is symmetric
and the single gap penalty is shared by both sequences. -/
lemma alignment_matrix_ref_symm (f1 f2 : List (Option Int)) (m x g : Int) :
    ∀ (n i j : Nat), i + j ≤ n →
      alignment_matrix_ref f1 f2 m x g i j = alignment_matrix_ref f2 f1 m x g j i := by
  intro n
  induction n with
  | zero =>
      intro i j h
      have hi : i = 0 := by omega
      have hj : j = 0 := by omega
      subst hi; subst hj
      simp [alignment_matrix_ref]
  | succ n ih =>
      intro i j h
      cases i with
      | zero =>
          cases j with
          | zero => simp [alignment_matrix_ref]
          | succ j' => simp [alignment_matrix_ref]
      | succ i' =>
          cases j with
          | zero => simp [alignment_matrix_ref]
          | succ j' =>
              have h1 := ih i' j' (by omega)
              have h2 := ih i' (j' + 1) (by omega)
              have h3 := ih (i' + 1) j' (by omega)
              rw [alignment_matrix_ref, alignment_matrix_ref]
              rw [h1, h2, h3, pair_score_comm]
              exact min_of_three_swap _ _ _

/-- Entries of the reference matrix are non-negative as soon as all three
scoring parameters are non-negative. -/
lemma alignment_matrix_ref_nonneg (f1 f2 : List (Option Int)) (m x g : Int)
    (hm : 0 ≤ m) (hx : 0 ≤ x) (hg : 0 ≤ g) :
    ∀ (n i j : Nat), i + j ≤ n → 0 ≤ alignment_matrix_ref f1 f2 m x g i j := by
  intro n
  induction n with
  | zero =>
      intro i j h
      have hi : i = 0 := by omega
      have hj : j = 0 := by omega
      subst hi; subst hj
      have e : alignment_matrix_ref f1 f2 m x g 0 0 = ((0 : Nat) : Int) * g := by
        simp [alignment_matrix_ref]
      rw [e]
      simp
  | succ n ih =>
      intro i j h
      cases i with
      | zero =>
          have e : alignment_matrix_ref f1 f2 m x g 0 j = (j : Int) * g := by
            simp [alignment_matrix_ref]
          rw [e]
          exact mul_nonneg (by positivity) hg
      | succ i' =>
          cases j with
          | zero =>
              have e : alignment_matrix_ref f1 f2 m x g (i' + 1) 0 =
                  ((i' : Int) + 1) * g := by
                simp [alignment_matrix_ref]
              rw [e]
              exact mul_nonneg (by positivity) hg
          | succ j' =>
              have h1 := ih i' j' (by omega)
              have h2 := ih i' (j' + 1) (by omega)
              have h3 := ih (i' + 1) j' (by omega)
              have hs : 0 ≤ pair_score (f1.getD i' none) (f2.getD j' none) m x := by
                unfold pair_score
                split
                · exact hm
                · split <;> assumption
                · exact hx
              rw [alignment_matrix_ref]
              unfold min_of_three
              omega

/-! ## ProfileDistance: shared-segments occurrence vectors -/

/-- `map_to_vector` from the shared-segments source: build a vector of size
`max_group_id + 1` of zeros and write every occurrence count whose group id
is at most `max_group_id` at its group-id index. The occurrence map is
modelled as the association list of its (group id, count) entries in key
order; `double` cells are modelled as exact rationals. -/
def map_to_vector (occurrences : List (Nat × Nat)) (max_group_id : Nat) : List ℚ :=
  occurrences.foldl
    (fun result gc =>
      if gc.1 ≤ max_group_id then result.set gc.1 (gc.2 : ℚ) else result)
    (List.replicate (max_group_id + 1) (0 : ℚ))

/-- `euclidean_distance`'s accumulated sum of squares, before the square
root: squared differences over the common prefix, then — when one vector is
longer — the squares of that vector's trailing elements. -/
def euclidean_sum_sq (v1 v2 : List ℚ) : ℚ :=
  let n := min v1.length v2.length
  let base := ((v1.zip v2).map (fun p => (p.1 - p.2) * (p.1 - p.2))).sum
  if v1.length > n then base + ((v1.drop n).map (fun y => y * y)).sum
  else if v2.length > n then base + ((v2.drop n).map (fun y => y * y)).sum
  else base

/-- `euclidean_distance` from the shared-segments source: square root of
the accumulated sum of squares. -/
noncomputable def euclidean_distance (v1 v2 : List ℚ) : ℝ :=
  Real.sqrt ((euclidean_sum_sq v1 v2 : ℚ) : ℝ)

/-- Modelled from the spec's words: sum of squared differences where the
shorter vector is implicitly zero-padded to the length of the longer one. -/
def padded_sum_sq : List ℚ → List ℚ → ℚ
  | [], [] => 0
  | y :: ys, [] => y * y + padded_sum_sq ys []
  | [], y :: ys => y * y + padded_sum_sq [] ys
  | y :: ys, z :: zs => (y - z) * (y - z) + padded_sum_sq ys zs

example : euclidean_sum_sq [1, 2] [1, 2, 3] = 9 := by
  norm_num [euclidean_sum_sq]

example : padded_sum_sq [1, 2] [1, 2, 3] = 9 := by
  norm_num [padded_sum_sq]

/-- One-sided padded sums are plain sums of squares. -/
lemma padded_sum_sq_nil_left (ys : List ℚ) :
    padded_sum_sq [] ys = (ys.map (fun y => y * y)).sum := by
  induction ys with
  | nil => simp [padded_sum_sq]
  | cons y ys ih => simp [padded_sum_sq, ih]

/-- One-sided padded sums are plain sums of squares. -/
lemma padded_sum_sq_nil_right (ys : List ℚ) :
    padded_sum_sq ys [] = (ys.map (fun y => y * y)).sum := by
  induction ys with
  | nil => simp [padded_sum_sq]
  | cons y ys ih => simp [padded_sum_sq, ih]

/-- The loop-shaped sum of squares computes the spec's zero-padded sum of
squared differences. -/
lemma euclidean_sum_sq_eq_padded (v1 : List ℚ) :
    ∀ v2 : List ℚ, euclidean_sum_sq v1 v2 = padded_sum_sq v1 v2 := by
  induction v1 with
  | nil =>
      intro v2
      cases v2 with
      | nil => simp [euclidean_sum_sq, padded_sum_sq]
      | cons z zs =>
          simp [euclidean_sum_sq, padded_sum_sq_nil_left]
  | cons y ys ih =>
      intro v2
      cases v2 with
      | nil =>
          simp [euclidean_sum_sq, padded_sum_sq_nil_right]
      | cons z zs =>
          have ihz := ih zs
          unfold euclidean_sum_sq at ihz ⊢
          simp only [List.length_cons, List.zip_cons_cons, List.map_cons,
            List.sum_cons, List.drop_succ_cons] at ihz ⊢
          rw [padded_sum_sq]
          rcases Nat.lt_trichotomy ys.length zs.length with hlt | heq | hgt
          · have h1 : min (ys.length + 1) (zs.length + 1) = ys.length + 1 := by omega
            have h2 : min ys.length zs.length = ys.length := by omega
            rw [h1] at *
            rw [h2] at ihz
            simp only [gt_iff_lt] at ihz ⊢
            rw [if_neg (by omega), if_pos (by omega)] at ihz ⊢
            rw [List.drop_succ_cons, ← ihz]
            ring
          · have h1 : min (ys.length + 1) (zs.length + 1) = ys.length + 1 := by omega
            have h2 : min ys.length zs.length = ys.length := by omega
            rw [h1] at *
            rw [h2] at ihz
            simp only [gt_iff_lt] at ihz ⊢
            rw [if_neg (by omega), if_neg (by omega)] at ihz ⊢
            rw [← ihz]
          · have h1 : min (ys.length + 1) (zs.length + 1) = zs.length + 1 := by omega
            have h2 : min ys.length zs.length = zs.length := by omega
            rw [h1] at *
            rw [h2] at ihz
            simp only [gt_iff_lt] at ihz ⊢
            rw [if_pos (by omega)] at ihz ⊢
            rw [List.drop_succ_cons, ← ihz]
            ring

/-- `List.set` keeps the length, so the occurrence-fold keeps the length of
its accumulator. -/
lemma map_to_vector_foldl_length (occ : List (Nat × Nat)) (mgid : Nat) :
    ∀ acc : List ℚ,
      (occ.foldl
        (fun result gc =>
          if gc.1 ≤ mgid then result.set gc.1 (gc.2 : ℚ) else result) acc).length
        = acc.length := by
  induction occ with
  | nil => intro acc; rfl
  | cons gc occ ih =>
      intro acc
      rw [List.foldl_cons, ih]
      split <;> simp

/-- Every occurrence vector built for a given `max_group_id` has length
`max_group_id + 1`. -/
lemma map_to_vector_length (occ : List (Nat × Nat)) (mgid : Nat) :
    (map_to_vector occ mgid).length = mgid + 1 := by
  unfold map_to_vector
  rw [map_to_vector_foldl_length]
  simp

/-- Entries whose group id exceeds `max_group_id` are silently dropped by
`map_to_vector`, wherever they sit in the occurrence map. -/
lemma map_to_vector_drops (occ1 occ2 : List (Nat × Nat)) (gid count mgid : Nat)
    (h : mgid < gid) :
    map_to_vector (occ1 ++ (gid, count) :: occ2) mgid
      = map_to_vector (occ1 ++ occ2) mgid := by
  unfold map_to_vector
  rw [List.foldl_append, List.foldl_append, List.foldl_cons]
  rw [if_neg (by omega)]

/-- On equal-length vectors the trailing branches of `euclidean_sum_sq` are
not taken: the result is the prefix accumulation alone. -/
lemma euclidean_sum_sq_eq_len (v1 v2 : List ℚ) (h : v1.length = v2.length) :
    euclidean_sum_sq v1 v2
      = ((v1.zip v2).map (fun p => (p.1 - p.2) * (p.1 - p.2))).sum := by
  unfold euclidean_sum_sq
  rw [h]
  simp

/-! ## Parsing feature strings: `convert_feature_to_vector` -/

/-- Outcome of `std::stoi` on a token: a parsed value, an
`invalid_argument` throw, or an `out_of_range` throw. -/
inductive StoiResult
  | ok (value : Int)
  | invalid
  | outOfRange
deriving DecidableEq

/-- Whitespace characters skipped by `strtol` before the number. -/
def is_cpp_space (c : Char) : Bool :=
  c = ' ' || c = '\t' || c = '\n' || c = '\x0b' || c = '\x0c' || c = '\r'

/-- Accumulate the value and count of the longest digit prefix, as
`strtol` does, stopping at the first non-digit. -/
def take_digits : List Char → Nat × Nat → Nat × Nat
  | [], st => st
  | c :: cs, st =>
      if c.isDigit then take_digits cs (st.1 * 10 + (c.toNat - 48), st.2 + 1)
      else st

/-- Model of `std::stoi` on a base-10 token: skip leading whitespace, read
an optional sign and the longest digit prefix; no digit at all throws
`invalid_argument` and a value outside the 32-bit `int` range throws
`out_of_range`; otherwise the value is returned (trailing junk after the
digits is ignored, exactly as `stoi` ignores it). -/
def cpp_stoi (s : String) : StoiResult :=
  let cs := s.toList.dropWhile is_cpp_space
  let signed : Int × List Char :=
    match cs with
    | '-' :: t => (-1, t)
    | '+' :: t => (1, t)
    | t => (1, t)
  let parsed := take_digits signed.2 (0, 0)
  if parsed.2 = 0 then StoiResult.invalid
  else
    let v : Int := signed.1 * (parsed.1 : Int)
    if v < -(2 ^ 31) ∨ 2 ^ 31 - 1 < v then StoiResult.outOfRange
    else StoiResult.ok v

example : cpp_stoi "42" = StoiResult.ok 42 := by decide

example : cpp_stoi "-7" = StoiResult.ok (-7) := by decide

example : cpp_stoi "abc" = StoiResult.invalid := by decide

example : cpp_stoi "" = StoiResult.invalid := by decide

example : cpp_stoi "12q" = StoiResult.ok 12 := by decide

example : cpp_stoi "4294967296" = StoiResult.outOfRange := by decide

/-- The tokens produced by repeated `getline(ss, value, ';')` on the
character stream: characters accumulate (in reverse) until a delimiter
emits a token; end of input emits a final token only when characters were
read since the last delimiter. -/
def getline_tokens_aux : List Char → List Char → List String
  | [], acc => if acc = [] then [] else [String.mk acc.reverse]
  | c :: cs, acc =>
      if c = ';' then String.mk acc.reverse :: getline_tokens_aux cs []
      else getline_tokens_aux cs (c :: acc)

/-- All `;`-delimited tokens of a feature string, as `getline` yields them. -/
def getline_tokens (s : String) : List String :=
  getline_tokens_aux s.toList []

example : getline_tokens "1;2;r" = ["1", "2", "r"] := by decide

example : getline_tokens "1;;2;" = ["1", "", "2"] := by decide

example : getline_tokens "" = [] := by decide

/-- The value the parsing loop stores for one non-empty token: `nullopt`
for the rest token and for both `stoi` failure modes, the parsed integer
otherwise. -/
def feature_token_value (value : String) : Option Int :=
  if value = "r" then none
  else
    match cpp_stoi value with
    | StoiResult.ok n => some n
    | StoiResult.invalid => none
    | StoiResult.outOfRange => none

/-- The diagnostic line the parsing loop prints for one non-empty token,
when there is one: only the two `stoi` failure modes produce one. -/
def feature_token_diag (value : String) : Option String :=
  if value = "r" then none
  else
    match cpp_stoi value with
    | StoiResult.ok _ => none
    | StoiResult.invalid => some ("Invalid value in feature: " ++ value)
    | StoiResult.outOfRange => some ("Value out of range: " ++ value)

/-- One iteration of the parsing loop of `convert_feature_to_vector`: skip
empty tokens, turn the rest token into `nullopt`, parse the others with
`stoi`, recovering from both exceptions by storing `nullopt` and
emitting a diagnostic. The state is (result vector, diagnostics stream). -/
def convert_step (st : List (Option Int) × List String) (value : String) :
    List (Option Int) × List String :=
  if value = "" then st
  else if value = "r" then (st.1 ++ [none], st.2)
  else
    match cpp_stoi value with
    | StoiResult.ok n => (st.1 ++ [some n], st.2)
    | StoiResult.invalid =>
        (st.1 ++ [none], st.2 ++ ["Invalid value in feature: " ++ value])
    | StoiResult.outOfRange =>
        (st.1 ++ [none], st.2 ++ ["Value out of range: " ++ value])

/-- `convert_feature_to_vector` from the source, with its diagnostics
stream made explicit: fold the parsing loop over the `;`-separated tokens
of the feature string. The first component is the returned vector. -/
def convert_feature_to_vector (feature : String) :
    List (Option Int) × List String :=
  (getline_tokens feature).foldl convert_step ([], [])

example : convert_feature_to_vector "1;r;5" = ([some 1, none, some 5], []) := by decide

example : convert_feature_to_vector "1;zz;5" =
    ([some 1, none, some 5], ["Invalid value in feature: zz"]) := by decide

example : convert_feature_to_vector "" = ([], []) := by decide

/-- Characterization of the parsing fold: starting from any state, it
appends the per-token values of the non-empty tokens and the per-token
diagnostics of the malformed ones. -/
lemma convert_foldl (tokens : List String) :
    ∀ acc1 : List (Option Int), ∀ acc2 : List String,
      tokens.foldl convert_step (acc1, acc2)
        = (acc1 ++ (tokens.filter (fun v => v ≠ "")).map feature_token_value,
           acc2 ++ (tokens.filter (fun v => v ≠ "")).filterMap feature_token_diag) := by
  induction tokens with
  | nil => intro acc1 acc2; simp
  | cons v tokens ih =>
      intro acc1 acc2
      rw [List.foldl_cons]
      by_cases hv : v = ""
      · subst hv
        simp [convert_step, ih]
      · by_cases hr : v = "r"
        · subst hr
          have h1 : ("r" : String) ≠ "" := by decide
          rw [convert_step]
          simp only [if_neg h1, if_pos rfl]
          rw [ih]
          simp [feature_token_value, feature_token_diag]
        · rcases hs : cpp_stoi v with n | _ | _
          · rw [convert_step]
            simp only [if_neg hv, if_neg hr, hs]
            rw [ih]
            simp [List.filter_cons, hv, feature_token_value, feature_token_diag, hr, hs]
          · rw [convert_step]
            simp only [if_neg hv, if_neg hr, hs]
            rw [ih]
            simp [List.filter_cons, hv, feature_token_value, feature_token_diag, hr, hs]
          · rw [convert_step]
            simp only [if_neg hv, if_neg hr, hs]
            rw [ih]
            simp [List.filter_cons, hv, feature_token_value, feature_token_diag, hr, hs]

/-! ## Data model of the drivers -/

/-- `FeatureData` from `utils/common.hpp`: the id of a segment or score and
its five feature sequences. -/
structure FeatureData where
  id : Int
  diatonic_feature : List (Option Int)
  chromatic_feature : List (Option Int)
  rhythmic_feature : List (Option Int)
  diatonic_rhythmic_feature : List (Option Int)
  chromatic_rhythmic_feature : List (Option Int)
deriving DecidableEq

/-- Default-constructed `FeatureData`, for out-of-range vector indexing
(never reached by the drivers). -/
def emptyFeatureData : FeatureData :=
  { id := 0
    diatonic_feature := []
    chromatic_feature := []
    rhythmic_feature := []
    diatonic_rhythmic_feature := []
    chromatic_rhythmic_feature := [] }

/-- `AlignmentScores` from `utils/common.hpp`: one distance record, with
the compared ids, the alignment level and one score per feature type. -/
structure AlignmentScores where
  id1 : Int
  id2 : Int
  level : String
  diatonic_score : Int
  chromatic_score : Int
  rhythmic_score : Int
  diatonic_rhythmic_score : Int
  chromatic_rhythmic_score : Int
deriving DecidableEq

/-- The index pairs visited by the nested loops
`for i in [0, n); for j in [i+1, n)`, in visit order. -/
def alignment_pairs (n : Nat) : List (Nat × Nat) :=
  (List.range n).flatMap
    (fun i => (List.range' (i + 1) (n - (i + 1))).map (fun j => (i, j)))

example : alignment_pairs 4 =
    [(0, 1), (0, 2), (0, 3), (1, 2), (1, 3), (2, 3)] := by decide

/-- The record built for one pair by `process_alignments`: both ids, the
level, and the five `global_alignment` scores, all computed with
match 0, mismatch 1, gap 1. -/
def mk_alignment_scores (d1 d2 : FeatureData) (level : String) : AlignmentScores :=
  { id1 := d1.id
    id2 := d2.id
    level := level
    diatonic_score :=
      global_alignment d1.diatonic_feature d2.diatonic_feature 0 1 1
    chromatic_score :=
      global_alignment d1.chromatic_feature d2.chromatic_feature 0 1 1
    rhythmic_score :=
      global_alignment d1.rhythmic_feature d2.rhythmic_feature 0 1 1
    diatonic_rhythmic_score :=
      global_alignment d1.diatonic_rhythmic_feature d2.diatonic_rhythmic_feature 0 1 1
    chromatic_rhythmic_score :=
      global_alignment d1.chromatic_rhythmic_feature d2.chromatic_rhythmic_feature 0 1 1 }

set_option linter.unusedVariables false in
/-- `process_alignments` from `compute_features_alignment.cpp`, modelled as
the stream of distance records the nested pair loops build and hand to the
batch writer (progress printing and the batch flush boundaries are I/O and
do not change the stream). `is_segment` only routes the save, as in the
source. -/
def process_alignments (data : List FeatureData) (is_segment : Bool)
    (level : String) : List AlignmentScores :=
  (alignment_pairs data.length).map
    (fun p => mk_alignment_scores (data.getD p.1 emptyFeatureData)
      (data.getD p.2 emptyFeatureData) level)

/-- The five feature types processed by both drivers. -/
def feature_types : List String :=
  ["diatonic", "chromatic", "rhythmic", "diatonic_rhythmic", "chromatic_rhythmic"]

/-- Point-in-time snapshot of the database state read by
`process_shared_segments_alignments`: the score ids (`get_all_score_ids`),
each score's group-occurrence map per feature type
(`get_group_occurrences`), and the corpus-wide maximum group id per
feature type (`get_max_group_id`, non-negative since it starts from 0). -/
structure SharedSegmentsDB where
  score_ids : List Int
  group_occurrences : Int → String → List (Nat × Nat)
  max_group_id : String → Nat

/-- The occurrence vector the shared-segments driver hands to
`euclidean_distance` for one score and feature type: `map_to_vector` of the
cached occurrence map, sized by the corpus-wide maximum group id of that
feature type. -/
def ss_vector (db : SharedSegmentsDB) (score_id : Int) (feature_type : String) :
    List ℚ :=
  map_to_vector (db.group_occurrences score_id feature_type)
    (db.max_group_id feature_type)

/-- `static_cast<int>(round(x))`: rounding half away from zero. -/
noncomputable def cpp_round (x : ℝ) : Int :=
  if x < 0 then -⌊-x + 1 / 2⌋ else ⌊x + 1 / 2⌋

/-- The integer score the shared-segments driver stores for one pair and
feature type: the Euclidean distance of the two occurrence vectors, scaled
by 100 and rounded. -/
noncomputable def shared_distance_score (db : SharedSegmentsDB)
    (id1 id2 : Int) (feature_type : String) : Int :=
  cpp_round (euclidean_distance (ss_vector db id1 feature_type)
    (ss_vector db id2 feature_type) * 100)

/-- The record built for one pair by
`process_shared_segments_alignments`: one scaled Euclidean distance per
feature type. -/
noncomputable def mk_shared_scores (db : SharedSegmentsDB) (id1 id2 : Int)
    (level : String) : AlignmentScores :=
  { id1 := id1
    id2 := id2
    level := level
    diatonic_score := shared_distance_score db id1 id2 "diatonic"
    chromatic_score := shared_distance_score db id1 id2 "chromatic"
    rhythmic_score := shared_distance_score db id1 id2 "rhythmic"
    diatonic_rhythmic_score := shared_distance_score db id1 id2 "diatonic_rhythmic"
    chromatic_rhythmic_score := shared_distance_score db id1 id2 "chromatic_rhythmic" }

/-- `process_shared_segments_alignments` from the shared-segments source,
modelled as the stream of distance records the nested pair loops build
(cache building, progress printing and batch flushes are I/O and do not
change the stream). -/
noncomputable def process_shared_segments_alignments (db : SharedSegmentsDB)
    (level : String) : List AlignmentScores :=
  (alignment_pairs db.score_ids.length).map
    (fun p => mk_shared_scores db (db.score_ids.getD p.1 0)
      (db.score_ids.getD p.2 0) level)

/-! ## Persistence: `save_alignments_batch` -/

/-- One row as bound by the insert statement of `save_alignments_batch`:
ids in canonical order, the level column only for score alignments, and
the five scores. -/
structure PersistedAlignmentRow where
  first_id : Int
  second_id : Int
  row_level : Option String
  diatonic_score : Int
  chromatic_score : Int
  rhythmic_score : Int
  diatonic_rhythmic_score : Int
  chromatic_rhythmic_score : Int
deriving DecidableEq

/-- The bindings `save_alignments_batch` performs for one record:
`min(a.id1, a.id2)` then `max(a.id1, a.id2)`, the level when the batch is a
score batch, then the five scores. -/
def bind_alignment_row (is_segment : Bool) (a : AlignmentScores) :
    PersistedAlignmentRow :=
  { first_id := min a.id1 a.id2
    second_id := max a.id1 a.id2
    row_level := if is_segment then none else some a.level
    diatonic_score := a.diatonic_score
    chromatic_score := a.chromatic_score
    rhythmic_score := a.rhythmic_score
    diatonic_rhythmic_score := a.diatonic_rhythmic_score
    chromatic_rhythmic_score := a.chromatic_rhythmic_score }

/-- `save_alignments_batch` from `utils/common.cpp`, modelled as the rows
its loop binds and steps, in order. -/
def save_alignments_batch (alignments : List AlignmentScores)
    (is_segment : Bool) : List PersistedAlignmentRow :=
  alignments.map (bind_alignment_row is_segment)

/-! ## Command line handling of `main` -/

/-- What `main` decides to do from its arguments before touching the
database. -/
inductive CliOutcome
  | usage_error
  | segment_run
  | score_run (level : String)
deriving DecidableEq

/-- The argument handling of `main` (`compute_features_alignment.cpp`),
over the arguments after the program name: fewer than one argument prints
usage and exits 1; `is_segment` is the comparison of the first argument
with the exact string `--type=segment`; a non-segment invocation demands
exactly `--level <level>` next with a recognized level, else exits 1. -/
def parse_args (args : List String) : CliOutcome :=
  match args with
  | [] => CliOutcome.usage_error
  | arg1 :: rest =>
      if arg1 = "--type=segment" then CliOutcome.segment_run
      else
        match rest with
        | [flag, level] =>
            if flag = "--level" then
              if level = "note" ∨ level = "structure" ∨ level = "shared_segments" then
                CliOutcome.score_run level
              else CliOutcome.usage_error
            else CliOutcome.usage_error
        | _ => CliOutcome.usage_error

example : parse_args ["--type=segment"] = CliOutcome.segment_run := by decide

example : parse_args ["--type=score", "--level", "note"] =
    CliOutcome.score_run "note" := by decide

example : parse_args ["--type=banana", "--level", "structure"] =
    CliOutcome.score_run "structure" := by decide

example : parse_args ["--type=score", "--level", "banana"] =
    CliOutcome.usage_error := by decide

/-! ## Pair enumeration lemmas -/

/-- Sums over `List.range` are sums over `Finset.range`. -/
lemma list_sum_map_range (f : Nat → Nat) (n : Nat) :
    ((List.range n).map f).sum = ∑ i ∈ Finset.range n, f i := by
  induction n with
  | zero => simp
  | succ n ih => rw [List.range_succ, Finset.sum_range_succ]; simp [ih]

/-- The nested loops visit exactly `n * (n - 1) / 2` pairs. -/
lemma alignment_pairs_length (n : Nat) :
    (alignment_pairs n).length = n * (n - 1) / 2 := by
  unfold alignment_pairs
  rw [List.length_flatMap]
  have h1 : (List.map
      (List.length ∘ fun i => (List.range' (i + 1) (n - (i + 1))).map (fun j => (i, j)))
      (List.range n)).sum = ((List.range n).map (fun i => n - 1 - i)).sum := by
    congr 1
    apply List.map_congr_left
    intro i _
    simp only [Function.comp_apply, List.length_map, List.length_range']
    omega
  rw [h1, list_sum_map_range]
  have h2 : ∑ i ∈ Finset.range n, (n - 1 - i) = ∑ i ∈ Finset.range n, i := by
    have := Finset.sum_range_reflect (fun i => i) n
    simpa using this
  rw [h2, Finset.sum_range_id]

/-- The nested loops visit each index pair at most once. -/
lemma alignment_pairs_nodup (n : Nat) : (alignment_pairs n).Nodup := by
  unfold alignment_pairs
  rw [List.nodup_flatMap]
  constructor
  · intro i _
    apply List.Nodup.map
    · intro a b hab
      simpa using hab
    · exact List.nodup_range' _ _
  · have : ∀ i j : Nat, i ≠ j →
        (List.Disjoint on fun i => (List.range' (i + 1) (n - (i + 1))).map
          (fun j => (i, j))) i j := by
      intro i j hij
      intro p hp1 hp2
      simp only [List.mem_map] at hp1 hp2
      obtain ⟨a, _, ha⟩ := hp1
      obtain ⟨b, _, hb⟩ := hp2
      rw [← ha] at hb
      exact hij (congrArg Prod.fst hb).symm
    exact List.Pairwise.imp_of_mem (fun {a b} _ _ h => this a b h)
      ((List.nodup_range n).imp (fun h => h))

/-- The nested loops visit exactly the pairs `i < j < n`. -/
lemma alignment_pairs_mem (n : Nat) (p : Nat × Nat) :
    p ∈ alignment_pairs n ↔ p.1 < p.2 ∧ p.2 < n := by
  unfold alignment_pairs
  rw [List.mem_flatMap]
  constructor
  · rintro ⟨i, hi, hp⟩
    simp only [List.mem_map] at hp
    obtain ⟨j, hj, hpj⟩ := hp
    rw [List.mem_range'_1] at hj
    rw [List.mem_range] at hi
    rw [← hpj]
    constructor <;> simp <;> omega
  · rintro ⟨h1, h2⟩
    refine ⟨p.1, ?_, ?_⟩
    · rw [List.mem_range]; omega
    · simp only [List.mem_map]
      refine ⟨p.2, ?_, rfl⟩
      rw [List.mem_range'_1]
      omega

/-! ## Claims -/

/-- C1: one run of the pairwise sweep — `process_alignments` for the
note/structure levels and segment mode, or
`process_shared_segments_alignments` for shared_segments — produces exactly
`N * (N - 1) / 2` distance records for a corpus of `N` entities, one per
unordered pair of distinct entities (the visited index-pair list has no
duplicates and is exactly the pairs `i < j < N`), and each record is a
`mk_alignment_scores` record, which carries one score for every one of the
five feature types. -/
theorem C1_pairwise_sweep_completeness :
    ∀ (data : List FeatureData) (is_segment : Bool) (level : String)
      (db : SharedSegmentsDB),
      (process_alignments data is_segment level).length
        = data.length * (data.length - 1) / 2
      ∧ (process_shared_segments_alignments db level).length
        = db.score_ids.length * (db.score_ids.length - 1) / 2
      ∧ (alignment_pairs data.length).Nodup
      ∧ (∀ p : Nat × Nat,
          p ∈ alignment_pairs data.length ↔ p.1 < p.2 ∧ p.2 < data.length)
      ∧ (∀ i j : Nat, i < j → j < data.length →
          mk_alignment_scores (data.getD i emptyFeatureData)
              (data.getD j emptyFeatureData) level
            ∈ process_alignments data is_segment level) := by
  intro data is_segment level db
  refine ⟨?_, ?_, alignment_pairs_nodup _, alignment_pairs_mem _, ?_⟩
  · unfold process_alignments
    rw [List.length_map, alignment_pairs_length]
  · unfold process_shared_segments_alignments
    rw [List.length_map, alignment_pairs_length]
  · intro i j h1 h2
    unfold process_alignments
    exact List.mem_map.mpr ⟨(i, j), (alignment_pairs_mem _ _).mpr ⟨h1, h2⟩, rfl⟩

/-- Two-entity corpus used to instantiate C1. -/
def c1_data : List FeatureData :=
  [{ id := 1
     diatonic_feature := [some 1]
     chromatic_feature := [some 1]
     rhythmic_feature := [some 2]
     diatonic_rhythmic_feature := [some 1, some 2]
     chromatic_rhythmic_feature := [some 1, some 2] },
   { id := 2
     diatonic_feature := [some 2]
     chromatic_feature := [some 3]
     rhythmic_feature := [some 2]
     diatonic_rhythmic_feature := [some 2, some 2]
     chromatic_rhythmic_feature := [some 3, some 2] }]

/-- Empty shared-segments snapshot used to instantiate C1. -/
def c1_db : SharedSegmentsDB :=
  { score_ids := []
    group_occurrences := fun _ _ => []
    max_group_id := fun _ => 0 }

/-- Witness for C1 at a concrete two-entity corpus. -/
theorem C1_pairwise_sweep_completeness_witness :
    mk_alignment_scores (c1_data.getD 0 emptyFeatureData)
        (c1_data.getD 1 emptyFeatureData) "note"
      ∈ process_alignments c1_data false "note" :=
  (C1_pairwise_sweep_completeness c1_data false "note" c1_db).2.2.2.2
    0 1 (by decide) (by decide)

/-- C2: every row persisted by `save_alignments_batch` stores
`min(id1, id2)` first and `max(id1, id2)` second for some record of the
batch, whatever order the driver put the ids in; hence the stored pair is
strictly increasing whenever the two compared entities are distinct. -/
theorem C2_canonical_pair_orientation :
    ∀ (alignments : List AlignmentScores) (is_segment : Bool)
      (r : PersistedAlignmentRow),
      r ∈ save_alignments_batch alignments is_segment →
      (∃ a ∈ alignments,
          r.first_id = min a.id1 a.id2 ∧ r.second_id = max a.id1 a.id2
          ∧ (a.id1 ≠ a.id2 → r.first_id < r.second_id))
      ∧ r.first_id ≤ r.second_id := by
  intro alignments is_segment r hr
  unfold save_alignments_batch at hr
  rw [List.mem_map] at hr
  obtain ⟨a, ha, rfl⟩ := hr
  refine ⟨⟨a, ha, rfl, rfl, ?_⟩, ?_⟩
  · intro hne
    simp only [bind_alignment_row]
    omega
  · simp only [bind_alignment_row]
    omega

/-- A record handed to the writer with its ids in descending order, used to
instantiate C2. -/
def c2_record : AlignmentScores :=
  { id1 := 5
    id2 := 3
    level := "note"
    diatonic_score := 1
    chromatic_score := 2
    rhythmic_score := 3
    diatonic_rhythmic_score := 4
    chromatic_rhythmic_score := 5 }

/-- Witness for C2 at a concrete one-record batch with descending ids. -/
theorem C2_canonical_pair_orientation_witness :
    (∃ a ∈ [c2_record],
        (bind_alignment_row false c2_record).first_id = min a.id1 a.id2
        ∧ (bind_alignment_row false c2_record).second_id = max a.id1 a.id2
        ∧ (a.id1 ≠ a.id2 →
            (bind_alignment_row false c2_record).first_id
              < (bind_alignment_row false c2_record).second_id))
    ∧ (bind_alignment_row false c2_record).first_id
        ≤ (bind_alignment_row false c2_record).second_id :=
  C2_canonical_pair_orientation [c2_record] false
    (bind_alignment_row false c2_record) (by simp [save_alignments_batch])

/-- C3: `global_alignment` is symmetric in its two sequences, for every
choice of match score, mismatch penalty and (single, shared) gap
penalty. -/
theorem C3_global_alignment_symmetric :
    ∀ (A B : List (Option Int)) (m x g : Int),
      global_alignment A B m x g = global_alignment B A m x g := by
  intro A B m x g
  rw [global_alignment_eq_ref, global_alignment_eq_ref]
  unfold global_alignment_ref
  exact alignment_matrix_ref_symm A B m x g (A.length + B.length) _ _ le_rfl

/-- C4: the two-rolling-column implementation of `global_alignment`
computes the same value as the classic full-matrix reference
`alignment_matrix_ref` (row/column 0 at index times gap penalty, each cell
the minimum of the diagonal move plus the pair score and the two gap moves,
result the bottom-right cell). -/
theorem C4_rolling_columns_refine_full_matrix :
    ∀ (A B : List (Option Int)) (m x g : Int),
      global_alignment A B m x g = global_alignment_ref A B m x g :=
  global_alignment_eq_ref

/-- C5: aligning an empty sequence against a sequence of length `L` costs
`L * gap_penalty` on either side, and two empty sequences cost 0. -/
theorem C5_empty_sequence_boundary :
    ∀ (B : List (Option Int)) (m x g : Int),
      global_alignment [] B m x g = (B.length : Int) * g
      ∧ global_alignment B [] m x g = (B.length : Int) * g
      ∧ global_alignment [] [] m x g = 0 := by
  intro B m x g
  refine ⟨?_, ?_, ?_⟩
  · rw [global_alignment_eq_ref]
    unfold global_alignment_ref
    simp [alignment_matrix_ref]
  · rw [global_alignment_eq_ref]
    unfold global_alignment_ref
    cases hB : B.length with
    | zero => simp [alignment_matrix_ref]
    | succ k =>
        have e : alignment_matrix_ref B [] m x g (k + 1) 0 = ((k : Int) + 1) * g := by
          simp [alignment_matrix_ref]
        rw [List.length_nil, e]
        push_cast
        ring
  · rw [global_alignment_eq_ref]
    unfold global_alignment_ref
    simp [alignment_matrix_ref]

/-- C6: for any two vectors, possibly of different lengths,
`euclidean_distance` is the square root of the zero-padded sum of squared
differences (squared differences over the common prefix plus the squares of
the longer vector's trailing elements); in particular it maps
`[1, 2]` and `[1, 2, 3]` to `3`. -/
theorem C6_euclidean_distance_zero_padding :
    (∀ v1 v2 : List ℚ,
        euclidean_distance v1 v2 = Real.sqrt ((padded_sum_sq v1 v2 : ℚ) : ℝ))
    ∧ euclidean_distance [1, 2] [1, 2, 3] = 3 := by
  constructor
  · intro v1 v2
    unfold euclidean_distance
    rw [euclidean_sum_sq_eq_padded]
  · unfold euclidean_distance
    have h : euclidean_sum_sq [1, 2] [1, 2, 3] = 9 := by
      norm_num [euclidean_sum_sq]
    rw [h]
    have h9 : ((9 : ℚ) : ℝ) = 3 ^ 2 := by norm_num
    rw [h9, Real.sqrt_sq (by norm_num : (0 : ℝ) ≤ 3)]

/-- C7 counterexample: with a negative match score the alignment value can
be negative, so the claim quantified over all signed parameters fails. -/
theorem C7_counterexample_negative_match_score :
    ¬ 0 ≤ global_alignment [some 1] [some 1] (-1) 1 1 := by decide

/-- C7 amended: `global_alignment` returns a non-negative integer whenever
the match score, mismatch penalty and gap penalty are each non-negative
(which covers the in-practice parameters match 0, mismatch 1, gap 1). -/
theorem C7_nonneg_for_nonneg_params :
    ∀ (A B : List (Option Int)) (m x g : Int),
      0 ≤ m → 0 ≤ x → 0 ≤ g → 0 ≤ global_alignment A B m x g := by
  intro A B m x g hm hx hg
  rw [global_alignment_eq_ref]
  exact alignment_matrix_ref_nonneg A B m x g hm hx hg
    (A.length + B.length) _ _ le_rfl

/-- Witness for the amended C7 at the in-practice parameters. -/
theorem C7_nonneg_for_nonneg_params_witness :
    0 ≤ global_alignment [some 1, none] [some 2] 0 1 1 :=
  C7_nonneg_for_nonneg_params [some 1, none] [some 2] 0 1 1
    (by decide) (by decide) (by decide)

/-- C8: `convert_feature_to_vector` is total over its tokens — its result
is one stored optional value per non-empty token plus one diagnostic per
malformed token; the rest token `r` is stored as `nullopt`, every token on
which `stoi` throws (`invalid_argument` or `out_of_range`) is stored as
`nullopt` with a diagnostic emitted, and the empty input yields a
zero-length sequence. -/
theorem C8_parse_error_recovery :
    ∀ feature : String,
      convert_feature_to_vector feature
        = (((getline_tokens feature).filter (fun v => v ≠ "")).map
             feature_token_value,
           ((getline_tokens feature).filter (fun v => v ≠ "")).filterMap
             feature_token_diag)
      ∧ feature_token_value "r" = none
      ∧ (∀ v : String, v ≠ "r" →
          (cpp_stoi v = StoiResult.invalid ∨ cpp_stoi v = StoiResult.outOfRange) →
          feature_token_value v = none ∧ feature_token_diag v ≠ none)
      ∧ convert_feature_to_vector "" = ([], []) := by
  intro feature
  refine ⟨?_, by decide, ?_, by decide⟩
  · unfold convert_feature_to_vector
    rw [convert_foldl]
    simp
  · intro v hr hf
    rcases hf with h | h <;>
      simp [feature_token_value, feature_token_diag, hr, h]

/-- Witness for C8 at a malformed token. -/
theorem C8_parse_error_recovery_witness :
    feature_token_value "zz" = none ∧ feature_token_diag "zz" ≠ none :=
  (C8_parse_error_recovery "").2.2.1 "zz" (by decide) (Or.inl (by decide))

/-- C9: both occurrence vectors the shared-segments driver hands to
`euclidean_distance` for a feature type are built by `map_to_vector` with
the same corpus-wide maximum group id, so both have length
`max_group_id + 1`; `map_to_vector` silently drops entries whose group id
exceeds that maximum; and on equal-length vectors the trailing branches of
the Euclidean sum are not taken, so they are unreachable from this
driver. -/
theorem C9_shared_segments_vector_lengths :
    ∀ (db : SharedSegmentsDB) (id1 id2 : Int) (feature_type : String),
      (ss_vector db id1 feature_type).length = db.max_group_id feature_type + 1
      ∧ (ss_vector db id2 feature_type).length = (ss_vector db id1 feature_type).length
      ∧ (∀ (occ1 occ2 : List (Nat × Nat)) (gid count mgid : Nat),
          mgid < gid →
          map_to_vector (occ1 ++ (gid, count) :: occ2) mgid
            = map_to_vector (occ1 ++ occ2) mgid)
      ∧ (∀ v1 v2 : List ℚ, v1.length = v2.length →
          euclidean_sum_sq v1 v2
            = ((v1.zip v2).map (fun p => (p.1 - p.2) * (p.1 - p.2))).sum) := by
  intro db id1 id2 feature_type
  refine ⟨map_to_vector_length _ _, ?_, map_to_vector_drops, euclidean_sum_sq_eq_len⟩
  rw [ss_vector, ss_vector, map_to_vector_length, map_to_vector_length]

/-- Concrete shared-segments snapshot used to instantiate C9. -/
def c9_db : SharedSegmentsDB :=
  { score_ids := [1, 2]
    group_occurrences := fun _ _ => [(0, 1), (1, 2)]
    max_group_id := fun _ => 2 }

/-- Witness for C9 at a concrete snapshot, together with a dropped
out-of-range occurrence entry. -/
theorem C9_shared_segments_vector_lengths_witness :
    (ss_vector c9_db 1 "diatonic").length = 3
    ∧ map_to_vector ([] ++ (5, 2) :: []) 2 = map_to_vector ([] ++ []) 2 := by
  refine ⟨(C9_shared_segments_vector_lengths c9_db 1 2 "diatonic").1, ?_⟩
  exact (C9_shared_segments_vector_lengths c9_db 1 2 "diatonic").2.2.1
    [] [] 5 2 2 (by decide)

/-- C10: `main` treats any first argument other than the exact string
`--type=segment` as score mode; an unrecognized type token combined with a
valid `--level` is accepted and runs the score-level sweep instead of
being rejected. -/
theorem C10_unrecognized_type_runs_score_mode :
    ∀ (type_token level : String),
      type_token ≠ "--type=segment" →
      (level = "note" ∨ level = "structure" ∨ level = "shared_segments") →
      parse_args [type_token, "--level", level] = CliOutcome.score_run level := by
  intro type_token level ht hl
  show (if type_token = "--type=segment" then CliOutcome.segment_run
    else
      if ("--level" : String) = "--level" then
        if level = "note" ∨ level = "structure" ∨ level = "shared_segments" then
          CliOutcome.score_run level
        else CliOutcome.usage_error
      else CliOutcome.usage_error) = CliOutcome.score_run level
  rw [if_neg ht, if_pos rfl, if_pos hl]

/-- Witness for C10 at an unrecognized type token. -/
theorem C10_unrecognized_type_runs_score_mode_witness :
    parse_args ["--type=banana", "--level", "note"] = CliOutcome.score_run "note" :=
  C10_unrecognized_type_runs_score_mode "--type=banana" "note"
    (by decide) (Or.inl rfl)

end Folkroot
